import Mathlib

/-!
Verification development for the PCA9685 16-channel 12-bit PWM driver
(files `inc/pca9685.hpp`, `src/pca9685.ipp`).

The driver is shallowly embedded as follows:

* C++ `float` quantities (PWM frequency, duty cycle) are modelled by exact
  rationals `ℚ`; `lroundf` on a non-negative value is round-half-away-from-zero,
  i.e. `⌊x + 1/2⌋`.
* Machine integers (`uint8_t`, `uint16_t`) become `Nat` with explicit masking
  (`&&& 0xFF`, `% 256`, ...) exactly where the C++ code masks or casts.
* The I2C transport (`I2cInterface`: `Write`, `Read`, `EnsureInitialized`) is
  modelled by `I2cModel`: a boolean outcome for the bus ready-check and a
  stream of per-attempt outcomes indexed by a global attempt counter, plus the
  byte values a successful read returns.
* Driver state (`initialized_`, `last_error_`, `error_flags_`, `retries_`,
  `retry_delay_`) is the structure `Drv`; the field `inited` models the C++
  member `initialized_`, `hasDelay` models `retry_delay_ != nullptr`.
* Every transport interaction is recorded in an event trace (`Ev`), so that
  claims about "transport calls observed" and register-write sequences are
  statements about the trace.
-/

namespace PCA9685

/-- Error codes of `PCA9685::Error` (bitmask flags, `pca9685.hpp` lines 43-51). -/
inductive Error where
  | None
  | I2cWrite
  | I2cRead
  | InvalidParam
  | DeviceNotFound
  | NotInitd
  | OutOfRange
deriving DecidableEq

/-- Numeric value of each error flag, as declared in the C++ enum
(`None = 0`, `I2cWrite = 1 << 0`, ..., `OutOfRange = 1 << 5`).
`NotInitd` models the C++ enumerator `NotInitialized = 1 << 4`. -/
def Error.val : Error → Nat
  | .None => 0
  | .I2cWrite => 1
  | .I2cRead => 2
  | .InvalidParam => 4
  | .DeviceNotFound => 8
  | .NotInitd => 16
  | .OutOfRange => 32

/-- Register addresses used by the driver (`PCA9685::Register`). -/
def MODE1 : Nat := 0x00

/-- MODE2 register address. -/
def MODE2 : Nat := 0x01

/-- First per-channel register (`LED0_ON_L = 0x06`). -/
def LED0_ON_L : Nat := 0x06

/-- Broadcast register (`ALL_LED_ON_L = 0xFA`). -/
def ALL_LED_ON_L : Nat := 0xFA

/-- Prescale register (`PRE_SCALE = 0xFE`). -/
def PRE_SCALE : Nat := 0xFE

/-- Number of PWM channels (`MAX_CHANNELS_ = 16`). -/
def MAX_CHANNELS : Nat := 16

/-- Maximum 12-bit tick value (`MAX_PWM_ = 4095`). -/
def MAX_PWM : Nat := 4095

/-- Internal oscillator frequency in Hz (`OSC_FREQ_ = 25000000`). -/
def OSC_FREQ : Nat := 25000000

/-- Model of the I2C transport. `busReadyOk` is the (stable) outcome of the
bus ready-check `i2c_->EnsureInitialized()`; `ok n` tells whether the `n`-th
transport attempt (global counter over the driver's lifetime) succeeds;
`readData n` is the raw byte a successful 1-byte read attempt `n` returns
(taken mod 256 by the model, since the C++ out-parameter is `uint8_t`);
`readBlockData n len` is the block a successful block-read attempt returns. -/
structure I2cModel where
  busReadyOk : Bool
  ok : Nat → Bool
  readData : Nat → Nat
  readBlockData : Nat → Nat → List Nat

/-- Observable transport/driver events, recorded in program order. -/
inductive Ev where
  | readyCheck
  | writeAttempt (reg : Nat) (data : List Nat)
  | readAttempt (reg : Nat) (len : Nat)
  | delayCall
deriving DecidableEq

/-- Driver member state (`pca9685.hpp` lines 311-318): `inited` models
`initialized_`, `hasDelay` models `retry_delay_ != nullptr`. -/
structure Drv where
  busPresent : Bool
  addr : Nat
  lastError : Error
  errorFlags : Nat
  retries : Nat
  hasDelay : Bool
  inited : Bool
deriving DecidableEq

/-- A freshly constructed driver (constructor plus C++ member initializers:
`last_error_ = None`, `error_flags_ = 0`, `retries_ = 3`,
`retry_delay_ = nullptr`, `initialized_ = false`). -/
def Drv.mk0 (busPresent : Bool) (addr : Nat) : Drv :=
  { busPresent := busPresent
    addr := addr
    lastError := Error.None
    errorFlags := 0
    retries := 3
    hasDelay := false
    inited := false }

/-- Full model state: driver members, the global transport-attempt counter,
and the event trace. -/
structure St where
  drv : Drv
  ctr : Nat
  trace : List Ev
deriving DecidableEq

/-- Driver helper `setError(e)`: records `e` as last error and ORs its bit
into the accumulated flag mask (`pca9685.hpp` lines 321-324). -/
def setError (s : St) (e : Error) : St :=
  { s with
      drv := { s.drv with
                 lastError := e
                 errorFlags := s.drv.errorFlags ||| e.val } }

/-- Sets the `initialized_` member. -/
def setInited (s : St) (b : Bool) : St :=
  { s with drv := { s.drv with inited := b } }

/-- Sets the `last_error_` member (without touching the flag mask). -/
def setLast (s : St) (e : Error) : St :=
  { s with drv := { s.drv with lastError := e } }

/-- Retry loop of `writeReg` / `writeRegBlock` (`pca9685.ipp` lines 262-269
and 296-303): attempt the transport write; on success return immediately;
on failure, if attempts remain (`attempt < retries_`), invoke the optional
delay callback and retry.  The fuel argument is the number of attempts still
allowed after the current one. -/
def writeLoop (m : I2cModel) (reg : Nat) (data : List Nat) :
    Nat → St → Bool × St
  | r, s =>
    let s1 : St := { s with
                       ctr := s.ctr + 1
                       trace := s.trace ++ [Ev.writeAttempt reg data] }
    if m.ok s.ctr then (true, s1)
    else
      match r with
      | 0 => (false, s1)
      | r' + 1 =>
        let s2 : St := if s.drv.hasDelay then
            { s1 with trace := s1.trace ++ [Ev.delayCall] }
          else s1
        writeLoop m reg data r' s2

/-- Retry loop of `readReg` (`pca9685.ipp` lines 279-286); on success the
byte read is `readData` at the successful attempt index, masked to 8 bits. -/
def readLoop (m : I2cModel) (reg : Nat) : Nat → St → Option Nat × St
  | r, s =>
    let s1 : St := { s with
                       ctr := s.ctr + 1
                       trace := s.trace ++ [Ev.readAttempt reg 1] }
    if m.ok s.ctr then (some (m.readData s.ctr % 256), s1)
    else
      match r with
      | 0 => (none, s1)
      | r' + 1 =>
        let s2 : St := if s.drv.hasDelay then
            { s1 with trace := s1.trace ++ [Ev.delayCall] }
          else s1
        readLoop m reg r' s2

/-- Retry loop of `readRegBlock` (`pca9685.ipp` lines 313-320). -/
def readBlockLoop (m : I2cModel) (reg : Nat) (len : Nat) :
    Nat → St → Option (List Nat) × St
  | r, s =>
    let s1 : St := { s with
                       ctr := s.ctr + 1
                       trace := s.trace ++ [Ev.readAttempt reg len] }
    if m.ok s.ctr then (some (m.readBlockData s.ctr len), s1)
    else
      match r with
      | 0 => (none, s1)
      | r' + 1 =>
        let s2 : St := if s.drv.hasDelay then
            { s1 with trace := s1.trace ++ [Ev.delayCall] }
          else s1
        readBlockLoop m reg len r' s2

/-- Member `writeReg` (`pca9685.ipp` lines 257-272): null-bus guard, retry
loop, on exhaustion set `I2cWrite` and fail. -/
def writeReg (m : I2cModel) (reg val : Nat) (s : St) : Bool × St :=
  if s.drv.busPresent = false then (false, s)
  else
    match writeLoop m reg [val] s.drv.retries s with
    | (true, s1) => (true, s1)
    | (false, s1) => (false, setError s1 Error.I2cWrite)

/-- Member `readReg` (`pca9685.ipp` lines 274-289). -/
def readReg (m : I2cModel) (reg : Nat) (s : St) : Option Nat × St :=
  if s.drv.busPresent = false then (none, s)
  else
    match readLoop m reg s.drv.retries s with
    | (some v, s1) => (some v, s1)
    | (none, s1) => (none, setError s1 Error.I2cRead)

/-- Member `writeRegBlock` (`pca9685.ipp` lines 291-306). -/
def writeRegBlock (m : I2cModel) (reg : Nat) (data : List Nat) (s : St) :
    Bool × St :=
  if s.drv.busPresent = false then (false, s)
  else
    match writeLoop m reg data s.drv.retries s with
    | (true, s1) => (true, s1)
    | (false, s1) => (false, setError s1 Error.I2cWrite)

/-- Member `readRegBlock` (`pca9685.ipp` lines 308-323). -/
def readRegBlock (m : I2cModel) (reg len : Nat) (s : St) :
    Option (List Nat) × St :=
  if s.drv.busPresent = false then (none, s)
  else
    match readBlockLoop m reg len s.drv.retries s with
    | (some v, s1) => (some v, s1)
    | (none, s1) => (none, setError s1 Error.I2cRead)

/-- Member `calcPrescale` (`pca9685.ipp` lines 339-345), with `float`
modelled by `ℚ`:
`prescale_val = OSC_FREQ_ / (4096 * freq) - 1`, clamped below by 3 and above
by 255, then `lroundf` (round half away from zero; the value is positive, so
this is `⌊x + 1/2⌋`) and the final `uint8_t` cast (mod 256). -/
def calcPrescale (freq : ℚ) : Nat :=
  let p0 : ℚ := (OSC_FREQ : ℚ) / (4096 * freq) - 1
  let p1 : ℚ := max p0 3
  let p2 : ℚ := min p1 255
  (⌊p2 + 1 / 2⌋).toNat % 256

/-- The 4-byte LED register block built by `SetPwm` / `SetAllPwm`
(`pca9685.ipp` lines 102-104 and 131-133):
`[on & 0xFF, (on >> 8) & 0x0F, off & 0xFF, (off >> 8) & 0x0F]`. -/
def pwmData (on_time off_time : Nat) : List Nat :=
  [on_time &&& 0xFF, (on_time >>> 8) &&& 0x0F,
   off_time &&& 0xFF, (off_time >>> 8) &&& 0x0F]

/-- Spec-side decoder for the 4-byte block: byte0/byte1 are the low/high
parts of the on-tick, byte2/byte3 of the off-tick (spec section 4.3).  The
driver itself has no decoder; this definition follows the spec's words and
exists only to state the round-trip property. -/
def specDecodePwm (l : List Nat) : Nat × Nat :=
  (l.getD 0 0 + 256 * l.getD 1 0, l.getD 2 0 + 256 * l.getD 3 0)

/-- Member `Reset` (`pca9685.ipp` lines 43-60): bus ready-check (recorded as
an `Ev.readyCheck` event when a bus is attached; the C++ `!i2c_ ||
!i2c_->EnsureInitialized()` short-circuits, so no transport interaction
happens with a null bus), then write `0x00` to MODE1; on success set
`initialized_ = true` and clear the last error. -/
def Reset (m : I2cModel) (s : St) : Bool × St :=
  if s.drv.busPresent = false then
    (false, setInited (setError s Error.I2cWrite) false)
  else
    let s0 : St := { s with trace := s.trace ++ [Ev.readyCheck] }
    if m.busReadyOk = false then
      (false, setInited (setError s0 Error.I2cWrite) false)
    else
      match writeReg m MODE1 0x00 s0 with
      | (false, s1) => (false, setInited s1 false)
      | (true, s1) => (true, setLast (setInited s1 true) Error.None)

/-- Member `EnsureInitialized` (`pca9685.ipp` lines 35-41): immediate success
when already initialized, otherwise delegate to `Reset`. -/
def EnsureInit (m : I2cModel) (s : St) : Bool × St :=
  if s.drv.inited then (true, s) else Reset m s

/-- Member `SetPwmFreq` (`pca9685.ipp` lines 62-89), `float` as `ℚ`. -/
def SetPwmFreq (m : I2cModel) (freq : ℚ) (s : St) : Bool × St :=
  match EnsureInit m s with
  | (false, s1) => (false, setError s1 Error.NotInitd)
  | (true, s1) =>
    if freq < 24 ∨ freq > 1526 then (false, setError s1 Error.OutOfRange)
    else
      match readReg m MODE1 s1 with
      | (none, s2) => (false, s2)
      | (some old_mode, s2) =>
        match writeReg m MODE1 ((old_mode &&& 0x7F) ||| 0x10) s2 with
        | (false, s3) => (false, s3)
        | (true, s3) =>
          match writeReg m PRE_SCALE (calcPrescale freq) s3 with
          | (false, s4) => (false, s4)
          | (true, s4) =>
            match writeReg m MODE1 old_mode s4 with
            | (false, s5) => (false, s5)
            | (true, s5) => (true, setLast s5 Error.None)

/-- Member `SetPwm` (`pca9685.ipp` lines 91-110). -/
def SetPwm (m : I2cModel) (channel on_time off_time : Nat) (s : St) :
    Bool × St :=
  match EnsureInit m s with
  | (false, s1) => (false, setError s1 Error.NotInitd)
  | (true, s1) =>
    if channel ≥ MAX_CHANNELS ∨ on_time > MAX_PWM ∨ off_time > MAX_PWM then
      (false, setError s1 Error.OutOfRange)
    else
      match writeRegBlock m (LED0_ON_L + 4 * channel)
          (pwmData on_time off_time) s1 with
      | (false, s2) => (false, s2)
      | (true, s2) => (true, setLast s2 Error.None)

/-- Duty-to-off-tick conversion inside `SetDuty` (`pca9685.ipp` lines
114-117): clamp the duty to `[0, 1]`, then `lroundf(duty * 4095)` cast to
`uint16_t` (the clamped product lies in `[0, 4095]`, so the cast is exact
and modelled by `Int.toNat`). -/
def dutyToOffTick (duty : ℚ) : Nat :=
  let d0 : ℚ := max duty 0
  let d1 : ℚ := min d0 1
  (⌊d1 * (MAX_PWM : ℚ) + 1 / 2⌋).toNat

/-- Member `SetDuty` (`pca9685.ipp` lines 112-119). -/
def SetDuty (m : I2cModel) (channel : Nat) (duty : ℚ) (s : St) : Bool × St :=
  SetPwm m channel 0 (dutyToOffTick duty) s

/-- Member `SetAllPwm` (`pca9685.ipp` lines 121-139). -/
def SetAllPwm (m : I2cModel) (on_time off_time : Nat) (s : St) : Bool × St :=
  match EnsureInit m s with
  | (false, s1) => (false, setError s1 Error.NotInitd)
  | (true, s1) =>
    if on_time > MAX_PWM ∨ off_time > MAX_PWM then
      (false, setError s1 Error.OutOfRange)
    else
      match writeRegBlock m ALL_LED_ON_L (pwmData on_time off_time) s1 with
      | (false, s2) => (false, s2)
      | (true, s2) => (true, setLast s2 Error.None)

/-- Member `GetPrescale` (`pca9685.ipp` lines 141-152). -/
def GetPrescale (m : I2cModel) (s : St) : Option Nat × St :=
  match EnsureInit m s with
  | (false, s1) => (none, setError s1 Error.NotInitd)
  | (true, s1) =>
    match readReg m PRE_SCALE s1 with
    | (none, s2) => (none, s2)
    | (some v, s2) => (some v, setLast s2 Error.None)

/-- Member `modifyReg` (`pca9685.ipp` lines 325-337): read-modify-write.
The C++ `current & ~mask` on `uint8_t` values is `current &&& (0xFF ^^^
mask)` since `current < 256`. -/
def modifyReg (m : I2cModel) (reg mask val : Nat) (s : St) : Bool × St :=
  match readReg m reg s with
  | (none, s1) => (false, s1)
  | (some current, s1) =>
    let new_val : Nat := (current &&& (0xFF ^^^ mask)) ||| (val &&& mask)
    match writeReg m reg new_val s1 with
    | (false, s2) => (false, s2)
    | (true, s2) => (true, setLast s2 Error.None)

/-- Member `Sleep` (`pca9685.ipp` lines 156-163). -/
def Sleep (m : I2cModel) (s : St) : Bool × St :=
  match EnsureInit m s with
  | (false, s1) => (false, setError s1 Error.NotInitd)
  | (true, s1) => modifyReg m MODE1 0x10 0x10 s1

/-- Member `Wake` (`pca9685.ipp` lines 165-189): clear the SLEEP bit; if the
RESTART bit was set in the value read, write it back in a second MODE1
write. -/
def Wake (m : I2cModel) (s : St) : Bool × St :=
  match EnsureInit m s with
  | (false, s1) => (false, setError s1 Error.NotInitd)
  | (true, s1) =>
    match readReg m MODE1 s1 with
    | (none, s2) => (false, s2)
    | (some mode1, s2) =>
      let new_mode1 : Nat := mode1 &&& (0xFF ^^^ 0x10)
      match writeReg m MODE1 new_mode1 s2 with
      | (false, s3) => (false, s3)
      | (true, s3) =>
        if mode1 &&& 0x80 ≠ 0 then
          match writeReg m MODE1 (new_mode1 ||| 0x80) s3 with
          | (false, s4) => (false, s4)
          | (true, s4) => (true, setLast s4 Error.None)
        else (true, setLast s3 Error.None)

/-- Member `SetOutputInvert` (`pca9685.ipp` lines 193-201). -/
def SetOutputInvert (m : I2cModel) (invert : Bool) (s : St) : Bool × St :=
  match EnsureInit m s with
  | (false, s1) => (false, setError s1 Error.NotInitd)
  | (true, s1) => modifyReg m MODE2 0x10 (if invert then 0x10 else 0x00) s1

/-- Member `SetOutputDriverMode` (`pca9685.ipp` lines 203-211). -/
def SetOutputDriverMode (m : I2cModel) (totem_pole : Bool) (s : St) :
    Bool × St :=
  match EnsureInit m s with
  | (false, s1) => (false, setError s1 Error.NotInitd)
  | (true, s1) => modifyReg m MODE2 0x04 (if totem_pole then 0x04 else 0x00) s1

/-- Member `SetChannelFullOn` (`pca9685.ipp` lines 215-233). -/
def SetChannelFullOn (m : I2cModel) (channel : Nat) (s : St) : Bool × St :=
  match EnsureInit m s with
  | (false, s1) => (false, setError s1 Error.NotInitd)
  | (true, s1) =>
    if channel ≥ MAX_CHANNELS then (false, setError s1 Error.OutOfRange)
    else
      match writeRegBlock m (LED0_ON_L + 4 * channel)
          [0x00, 0x10, 0x00, 0x00] s1 with
      | (false, s2) => (false, s2)
      | (true, s2) => (true, setLast s2 Error.None)

/-- Member `SetChannelFullOff` (`pca9685.ipp` lines 235-253). -/
def SetChannelFullOff (m : I2cModel) (channel : Nat) (s : St) : Bool × St :=
  match EnsureInit m s with
  | (false, s1) => (false, setError s1 Error.NotInitd)
  | (true, s1) =>
    if channel ≥ MAX_CHANNELS then (false, setError s1 Error.OutOfRange)
    else
      match writeRegBlock m (LED0_ON_L + 4 * channel)
          [0x00, 0x00, 0x00, 0x10] s1 with
      | (false, s2) => (false, s2)
      | (true, s2) => (true, setLast s2 Error.None)

/-- Member `ClearError` (`pca9685.hpp` lines 187-189):
`error_flags_ &= ~uint16(e)`. -/
def ClearError (s : St) (e : Error) : St :=
  { s with drv := { s.drv with
      errorFlags := s.drv.errorFlags &&& (0xFFFF ^^^ e.val) } }

/-- Member `ClearErrorFlags` (`pca9685.hpp` lines 195-197):
`error_flags_ &= ~mask` on `uint16_t`. -/
def ClearErrorFlags (s : St) (mask : Nat) : St :=
  { s with drv := { s.drv with
      errorFlags := s.drv.errorFlags &&& (0xFFFF ^^^ (mask &&& 0xFFFF)) } }

/-- The public driver operations, reified so that properties can quantify
over "every driver operation". -/
inductive Op where
  | reset
  | ensureInit
  | setPwmFreq (freq : ℚ)
  | setPwm (channel on_time off_time : Nat)
  | setDuty (channel : Nat) (duty : ℚ)
  | setAllPwm (on_time off_time : Nat)
  | getPrescale
  | sleep
  | wake
  | setOutputInvert (invert : Bool)
  | setOutputDriverMode (totem_pole : Bool)
  | setChannelFullOn (channel : Nat)
  | setChannelFullOff (channel : Nat)

/-- Runs an operation, returning its boolean result (for `GetPrescale`,
success of the read) and the final state. -/
def runOp (op : Op) (m : I2cModel) (s : St) : Bool × St :=
  match op with
  | .reset => Reset m s
  | .ensureInit => EnsureInit m s
  | .setPwmFreq f => SetPwmFreq m f s
  | .setPwm c a b => SetPwm m c a b s
  | .setDuty c d => SetDuty m c d s
  | .setAllPwm a b => SetAllPwm m a b s
  | .getPrescale => ((GetPrescale m s).1.isSome, (GetPrescale m s).2)
  | .sleep => Sleep m s
  | .wake => Wake m s
  | .setOutputInvert b => SetOutputInvert m b s
  | .setOutputDriverMode b => SetOutputDriverMode m b s
  | .setChannelFullOn c => SetChannelFullOn m c s
  | .setChannelFullOff c => SetChannelFullOff m c s

/-- The operations the spec calls "PWM-setting operations": SetPwm, SetDuty,
SetAllPwm, SetPwmFreq, SetChannelFullOn, SetChannelFullOff, Sleep, Wake. -/
def Op.isPwmSetting : Op → Bool
  | .setPwmFreq _ => true
  | .setPwm _ _ _ => true
  | .setDuty _ _ => true
  | .setAllPwm _ _ => true
  | .sleep => true
  | .wake => true
  | .setChannelFullOn _ => true
  | .setChannelFullOff _ => true
  | _ => false

/-- Index (relative to `start`) of the first successful transport attempt
among the next `budget` attempts of the outcome stream `okf`, if any. -/
def firstOk (okf : Nat → Bool) (start budget : Nat) : Option Nat :=
  match budget with
  | 0 => none
  | b + 1 =>
    if okf start then some 0 else (firstOk okf (start + 1) b).map (· + 1)

/-- Number of transport attempts a retry loop with budget `retries` performs
starting at attempt index `start`: one more than the index of the first
success, or the full `retries + 1` when every attempt fails. -/
def usedAtt (okf : Nat → Bool) (start retries : Nat) : Nat :=
  match firstOk okf start (retries + 1) with
  | some k => k + 1
  | none => retries + 1

/-- Number of transport attempts (reads or writes) recorded in a trace. -/
def countAtt (t : List Ev) : Nat :=
  (t.filter fun e =>
    match e with
    | .writeAttempt _ _ => true
    | .readAttempt _ _ => true
    | _ => false).length

/-- Number of retry-delay callback invocations recorded in a trace. -/
def countDelay (t : List Ev) : Nat :=
  (t.filter fun e =>
    match e with
    | .delayCall => true
    | _ => false).length

/-- Retry contract of one low-level register operation started in state `s`:
at most `retries + 1` attempts in total; success exactly when some attempt in
the budget succeeds, stopping at the first success; the delay callback runs
once after every failed attempt except the final one (never after the last);
on total failure the operation's error flag is ORed in and recorded as last
error, and on success the driver members are untouched. -/
def RetrySpec (m : I2cModel) (s : St) (flag : Error) (res : Bool × St) :
    Prop :=
  usedAtt m.ok s.ctr s.drv.retries ≤ s.drv.retries + 1 ∧
  res.1 = (firstOk m.ok s.ctr (s.drv.retries + 1)).isSome ∧
  countAtt res.2.trace = countAtt s.trace + usedAtt m.ok s.ctr s.drv.retries ∧
  countDelay res.2.trace = countDelay s.trace +
    (if s.drv.hasDelay then usedAtt m.ok s.ctr s.drv.retries - 1 else 0) ∧
  (res.1 = true → res.2.drv = s.drv) ∧
  (res.1 = false →
    res.2.drv.errorFlags = s.drv.errorFlags ||| flag.val ∧
    res.2.drv.lastError = flag)

/-- Holds when every error-flag bit set in `s` is still set in `s1`
(error-flag accumulation only grows). -/
def FlagsMono (s s1 : St) : Prop :=
  ∀ n, s.drv.errorFlags.testBit n = true → s1.drv.errorFlags.testBit n = true

/-- A transport on which every interaction succeeds and every read returns 0. -/
def mGood : I2cModel :=
  { busReadyOk := true
    ok := fun _ => true
    readData := fun _ => 0
    readBlockData := fun _ len => List.replicate len 0 }

/-- A transport whose ready-check fails (device never responds). -/
def mDead : I2cModel :=
  { busReadyOk := false
    ok := fun _ => false
    readData := fun _ => 0
    readBlockData := fun _ len => List.replicate len 0 }

/-- A transport whose first two attempts fail and which succeeds from the
third attempt on. -/
def mFlaky : I2cModel :=
  { busReadyOk := true
    ok := fun n => decide (2 ≤ n)
    readData := fun _ => 0
    readBlockData := fun _ len => List.replicate len 0 }

/-- A freshly constructed driver at address 0x40 with a bus attached. -/
def sFresh : St := { drv := Drv.mk0 true 0x40, ctr := 0, trace := [] }

/-- A freshly constructed driver whose bus pointer is null. -/
def sNoBus : St := { drv := Drv.mk0 false 0x40, ctr := 0, trace := [] }

/-- An initialized driver with the retry budget set to 0 (one attempt per
register operation). -/
def sInit0 : St :=
  { drv := { Drv.mk0 true 0x40 with inited := true, retries := 0 }
    ctr := 0
    trace := [] }

/-- An initialized driver with retry budget 2 and a delay callback
configured. -/
def sRetry2 : St :=
  { drv := { Drv.mk0 true 0x40 with inited := true, retries := 2, hasDelay := true }
    ctr := 0
    trace := [] }

/-- An initialized driver with the default retry budget (3). -/
def sInit : St :=
  { drv := { Drv.mk0 true 0x40 with inited := true }, ctr := 0, trace := [] }

/-!
Theorems.  Each claim of the specification is settled by one theorem below;
helper lemmas precede them.
-/

lemma prescaleClamped_range (f : ℚ) :
    3 ≤ min (max ((OSC_FREQ : ℚ) / (4096 * f) - 1) 3) 255 ∧
    min (max ((OSC_FREQ : ℚ) / (4096 * f) - 1) 3) 255 ≤ 255 := by
  constructor
  · exact le_min (le_max_right _ _) (by norm_num)
  · exact min_le_right _ _

lemma calcPrescale_eq_floor (f : ℚ) :
    calcPrescale f =
      (⌊min (max ((OSC_FREQ : ℚ) / (4096 * f) - 1) 3) 255 + 1 / 2⌋).toNat := by
  have h := prescaleClamped_range f
  unfold calcPrescale
  have h3 : (3 : ℤ) ≤ ⌊min (max ((OSC_FREQ : ℚ) / (4096 * f) - 1) 3) 255 + 1 / 2⌋ := by
    apply Int.le_floor.mpr
    push_cast
    linarith [h.1]
  have h255 : ⌊min (max ((OSC_FREQ : ℚ) / (4096 * f) - 1) 3) 255 + 1 / 2⌋ < 256 := by
    apply Int.floor_lt.mpr
    push_cast
    linarith [h.2]
  have hlt : (⌊min (max ((OSC_FREQ : ℚ) / (4096 * f) - 1) 3) 255 + 1 / 2⌋).toNat < 256 := by
    omega
  simp only [Nat.mod_eq_of_lt hlt]

/-- C6: for frequencies in [24, 1526], `calcPrescale` is monotonically
non-increasing and its result lies in [3, 255]. -/
theorem C6_calcPrescale_antitone_range :
    ∀ f1 f2 : ℚ, 24 ≤ f1 → f1 ≤ f2 → f2 ≤ 1526 →
      calcPrescale f2 ≤ calcPrescale f1 ∧
      3 ≤ calcPrescale f1 ∧ calcPrescale f1 ≤ 255 := by
  intro f1 f2 h24 h12 h1526
  have hrange : ∀ f : ℚ, 3 ≤ calcPrescale f ∧ calcPrescale f ≤ 255 := by
    intro f
    have h := prescaleClamped_range f
    rw [calcPrescale_eq_floor]
    constructor
    · have h3 : (3 : ℤ) ≤ ⌊min (max ((OSC_FREQ : ℚ) / (4096 * f) - 1) 3) 255 + 1 / 2⌋ := by
        apply Int.le_floor.mpr
        push_cast
        linarith [h.1]
      omega
    · have h255 : ⌊min (max ((OSC_FREQ : ℚ) / (4096 * f) - 1) 3) 255 + 1 / 2⌋ < 256 := by
        apply Int.floor_lt.mpr
        push_cast
        linarith [h.2]
      omega
  refine ⟨?_, hrange f1⟩
  rw [calcPrescale_eq_floor, calcPrescale_eq_floor]
  apply Int.toNat_le_toNat
  apply Int.floor_le_floor
  have hdiv : (OSC_FREQ : ℚ) / (4096 * f2) ≤ (OSC_FREQ : ℚ) / (4096 * f1) := by
    apply div_le_div_of_nonneg_left (by norm_num [OSC_FREQ]) (by linarith) (by linarith)
  have hmax := max_le_max (sub_le_sub_right hdiv 1) (le_refl (3:ℚ))
  have hmin := min_le_min hmax (le_refl (255:ℚ))
  linarith

/-- C6 witness at the datasheet pair (50 Hz, 1000 Hz). -/
theorem C6_calcPrescale_witness :
    (24 : ℚ) ≤ 50 ∧ (50 : ℚ) ≤ 1000 ∧ (1000 : ℚ) ≤ 1526 ∧
    (calcPrescale 1000 ≤ calcPrescale 50 ∧
      3 ≤ calcPrescale 50 ∧ calcPrescale 50 ≤ 255) :=
  ⟨by norm_num, by norm_num, by norm_num,
    C6_calcPrescale_antitone_range 50 1000 (by norm_num) (by norm_num) (by norm_num)⟩

lemma and_255_eq_mod (n : Nat) : n &&& 255 = n % 256 := by
  have h := Nat.and_pow_two_sub_one_eq_mod n 8
  norm_num at h
  exact h

lemma and_15_eq_mod (n : Nat) : n &&& 15 = n % 16 := by
  have h := Nat.and_pow_two_sub_one_eq_mod n 4
  norm_num at h
  exact h

/-- C7: for ticks in [0, 4095], the 4-byte block written by `SetPwm` has its
high nibbles (bits 4-7 of bytes 1 and 3) zero, decoding the block recovers
the tick pair exactly, and an initialized `SetPwm` call writes exactly this
block to the channel register. -/
theorem C7_pwm_encode_roundtrip :
    ∀ on_time off_time : Nat, on_time ≤ 4095 → off_time ≤ 4095 →
      (pwmData on_time off_time).getD 1 0 < 16 ∧
      (pwmData on_time off_time).getD 3 0 < 16 ∧
      specDecodePwm (pwmData on_time off_time) = (on_time, off_time) ∧
      (∀ (m : I2cModel) (s : St) (channel : Nat),
        s.drv.inited = true → s.drv.busPresent = true → s.drv.retries = 0 →
        m.ok s.ctr = true → channel < 16 →
        (SetPwm m channel on_time off_time s).2.trace =
          s.trace ++ [Ev.writeAttempt (LED0_ON_L + 4 * channel)
            (pwmData on_time off_time)]) := by
  intro on_time off_time hon hoff
  refine ⟨?_, ?_, ?_, ?_⟩
  · simp [pwmData, and_15_eq_mod]
    omega
  · simp [pwmData, and_15_eq_mod]
    omega
  · simp [pwmData, specDecodePwm, and_255_eq_mod, and_15_eq_mod,
      Nat.shiftRight_eq_div_pow]
    omega
  · intro m s channel hin hbus hr hok hch
    have hval : ¬(channel ≥ MAX_CHANNELS ∨ on_time > MAX_PWM ∨ off_time > MAX_PWM) := by
      simp [MAX_CHANNELS, MAX_PWM]
      omega
    simp [SetPwm, EnsureInit, hin, hval, writeRegBlock, hbus, hr, writeLoop, hok, setLast]

/-- C7 witness at on-tick 0x123, off-tick 0xABC on an initialized driver. -/
theorem C7_pwm_encode_witness :
    (0x123 ≤ 4095 ∧ 0xABC ≤ 4095) ∧
    ((pwmData 0x123 0xABC).getD 1 0 < 16 ∧
      (pwmData 0x123 0xABC).getD 3 0 < 16 ∧
      specDecodePwm (pwmData 0x123 0xABC) = (0x123, 0xABC) ∧
      (∀ (m : I2cModel) (s : St) (channel : Nat),
        s.drv.inited = true → s.drv.busPresent = true → s.drv.retries = 0 →
        m.ok s.ctr = true → channel < 16 →
        (SetPwm m channel 0x123 0xABC s).2.trace =
          s.trace ++ [Ev.writeAttempt (LED0_ON_L + 4 * channel)
            (pwmData 0x123 0xABC)])) :=
  ⟨by decide, C7_pwm_encode_roundtrip 0x123 0xABC (by decide) (by decide)⟩

lemma dutyToOffTick_eq (d : ℚ) :
    dutyToOffTick d = (⌊min (max d 0) 1 * (MAX_PWM : ℚ) + 1 / 2⌋).toNat := rfl

/-- C8: `SetDuty` clamps the duty to [0, 1] and delegates to `SetPwm` with
on-tick 0 and off-tick `round(duty * 4095)`; an out-of-range duty behaves
exactly like its clamped value (duty -1/2 like 0, duty 3/2 like 1) and the
computed off-tick never exceeds 4095, so a duty outside [0, 1] can never
cause an error. -/
theorem C8_setDuty_clamps :
    ∀ (m : I2cModel) (channel : Nat) (duty : ℚ) (s : St),
      SetDuty m channel duty s = SetPwm m channel 0 (dutyToOffTick duty) s ∧
      SetDuty m channel duty s = SetDuty m channel (min (max duty 0) 1) s ∧
      dutyToOffTick duty ≤ 4095 ∧
      dutyToOffTick (-(1/2)) = dutyToOffTick 0 ∧ dutyToOffTick 0 = 0 ∧
      dutyToOffTick (3/2) = dutyToOffTick 1 ∧ dutyToOffTick 1 = 4095 := by
  intro m channel duty s
  have hclamp : ∀ d : ℚ, dutyToOffTick (min (max d 0) 1) = dutyToOffTick d := by
    intro d
    rw [dutyToOffTick_eq, dutyToOffTick_eq]
    have h0 : (0:ℚ) ≤ min (max d 0) 1 := le_min (le_max_right _ _) (by norm_num)
    rw [max_eq_left h0, min_eq_left (min_le_right _ _)]
  have hle : ∀ d : ℚ, dutyToOffTick d ≤ 4095 := by
    intro d
    rw [dutyToOffTick_eq]
    have h1 : min (max d 0) 1 ≤ 1 := min_le_right _ _
    have h0 : (0:ℚ) ≤ min (max d 0) 1 := le_min (le_max_right _ _) (by norm_num)
    have h2 : min (max d 0) 1 * (MAX_PWM : ℚ) + 1/2 < ((4096:ℤ) : ℚ) := by
      have hm : min (max d 0) 1 * (MAX_PWM : ℚ) ≤ (MAX_PWM : ℚ) := by
        nlinarith [h1, h0]
      push_cast
      norm_num [MAX_PWM] at hm ⊢
      linarith
    have := Int.floor_lt.mpr h2
    omega
  refine ⟨rfl, ?_, hle duty, ?_, ?_, ?_, ?_⟩
  · unfold SetDuty
    rw [hclamp duty]
  · rw [dutyToOffTick_eq, dutyToOffTick_eq]
    norm_num
  · rw [dutyToOffTick_eq]
    norm_num
  · rw [dutyToOffTick_eq, dutyToOffTick_eq]
    norm_num
  · rw [dutyToOffTick_eq]
    norm_num [MAX_PWM]
    decide



lemma notInitd_bit : Error.NotInitd.val.testBit 4 = true := by decide

lemma EnsureInit_noBus (m : I2cModel) (s : St) (h2 : s.drv.inited = false)
    (h3 : s.drv.busPresent = false) :
    EnsureInit m s = (false, setInited (setError s Error.I2cWrite) false) := by
  simp [EnsureInit, h2, Reset, h3]

/-- C1 (amended): a PWM-setting operation invoked while the driver is
Uninitialized first attempts auto-initialization (`Reset`); when that attempt
cannot run at all (null bus pointer) the call returns false, sets the
NotInitialized flag and performs zero transport calls. -/
theorem C1_uninit_pwm_ops (op : Op) (m : I2cModel) (s : St)
    (h1 : op.isPwmSetting = true) (h2 : s.drv.inited = false)
    (h3 : s.drv.busPresent = false) :
    (runOp op m s).1 = false ∧
    (runOp op m s).2.drv.errorFlags.testBit 4 = true ∧
    (runOp op m s).2.trace = s.trace := by
  have hE := EnsureInit_noBus m s h2 h3
  cases op with
  | reset => simp [Op.isPwmSetting] at h1
  | ensureInit => simp [Op.isPwmSetting] at h1
  | getPrescale => simp [Op.isPwmSetting] at h1
  | setOutputInvert b => simp [Op.isPwmSetting] at h1
  | setOutputDriverMode b => simp [Op.isPwmSetting] at h1
  | setPwmFreq f =>
    simp [runOp, SetPwmFreq, hE, setError, setInited, Nat.testBit_or, notInitd_bit]
  | setPwm c a b =>
    simp [runOp, SetPwm, hE, setError, setInited, Nat.testBit_or, notInitd_bit]
  | setDuty c d =>
    simp [runOp, SetDuty, SetPwm, hE, setError, setInited, Nat.testBit_or, notInitd_bit]
  | setAllPwm a b =>
    simp [runOp, SetAllPwm, hE, setError, setInited, Nat.testBit_or, notInitd_bit]
  | sleep =>
    simp [runOp, Sleep, hE, setError, setInited, Nat.testBit_or, notInitd_bit]
  | wake =>
    simp [runOp, Wake, hE, setError, setInited, Nat.testBit_or, notInitd_bit]
  | setChannelFullOn c =>
    simp [runOp, SetChannelFullOn, hE, setError, setInited, Nat.testBit_or, notInitd_bit]
  | setChannelFullOff c =>
    simp [runOp, SetChannelFullOff, hE, setError, setInited, Nat.testBit_or, notInitd_bit]

/-- C1 witness: `Sleep` on an uninitialized driver with a null bus. -/
theorem C1_uninit_pwm_witness :
    Op.isPwmSetting Op.sleep = true ∧ sNoBus.drv.inited = false ∧
    sNoBus.drv.busPresent = false ∧
    ((runOp Op.sleep mGood sNoBus).1 = false ∧
      (runOp Op.sleep mGood sNoBus).2.drv.errorFlags.testBit 4 = true ∧
      (runOp Op.sleep mGood sNoBus).2.trace = sNoBus.trace) :=
  ⟨rfl, rfl, rfl, C1_uninit_pwm_ops Op.sleep mGood sNoBus rfl rfl rfl⟩

/-- C1 counterexample: with a functioning transport, `SetPwm` invoked while
the driver state is Uninitialized auto-initializes, performs transport calls
and returns true, contradicting "returns false ... zero transport calls". -/
theorem C1_uninit_pwm_cex :
    sFresh.drv.inited = false ∧ (SetPwm mGood 0 0 0 sFresh).1 = true ∧
    (SetPwm mGood 0 0 0 sFresh).2.trace ≠ [] := by
  refine ⟨rfl, by decide, by decide⟩



/-- C4 (amended): on an initialized driver, every facade operation validates
its inputs before any transport access: out-of-range channel/tick/frequency
makes the call return false and set OutOfRange with the state otherwise
untouched (in particular, no register write and no transport call).  The
state-ensure step runs before validation, so this holds as stated only once
the driver is initialized. -/
theorem C4_validation_before_io (m : I2cModel) (s : St)
    (h : s.drv.inited = true) :
    (∀ channel on_time off_time : Nat,
      channel ≥ 16 ∨ on_time > 4095 ∨ off_time > 4095 →
      SetPwm m channel on_time off_time s = (false, setError s Error.OutOfRange)) ∧
    (∀ on_time off_time : Nat, on_time > 4095 ∨ off_time > 4095 →
      SetAllPwm m on_time off_time s = (false, setError s Error.OutOfRange)) ∧
    (∀ freq : ℚ, freq < 24 ∨ freq > 1526 →
      SetPwmFreq m freq s = (false, setError s Error.OutOfRange)) ∧
    (∀ channel : Nat, channel ≥ 16 →
      SetChannelFullOn m channel s = (false, setError s Error.OutOfRange)) ∧
    (∀ channel : Nat, channel ≥ 16 →
      SetChannelFullOff m channel s = (false, setError s Error.OutOfRange)) := by
  refine ⟨?_, ?_, ?_, ?_, ?_⟩
  · intro channel on_time off_time hrange
    simp only [SetPwm, EnsureInit, h, if_true]
    rw [if_pos (by simpa [MAX_CHANNELS, MAX_PWM] using hrange)]
  · intro on_time off_time hrange
    simp only [SetAllPwm, EnsureInit, h, if_true]
    rw [if_pos (by simpa [MAX_PWM] using hrange)]
  · intro freq hrange
    simp only [SetPwmFreq, EnsureInit, h, if_true]
    rw [if_pos hrange]
  · intro channel hrange
    simp only [SetChannelFullOn, EnsureInit, h, if_true]
    rw [if_pos (by simpa [MAX_CHANNELS] using hrange)]
  · intro channel hrange
    simp only [SetChannelFullOff, EnsureInit, h, if_true]
    rw [if_pos (by simpa [MAX_CHANNELS] using hrange)]

/-- C4 witness: channel 16 and off-tick 5000 on an initialized driver. -/
theorem C4_validation_witness :
    sInit.drv.inited = true ∧ (16 ≥ 16 ∨ 0 > 4095 ∨ 0 > 4095) ∧
    SetPwm mGood 16 0 0 sInit = (false, setError sInit Error.OutOfRange) ∧
    ((0:Nat) > 4095 ∨ 5000 > 4095) ∧
    SetAllPwm mGood 0 5000 sInit = (false, setError sInit Error.OutOfRange) :=
  ⟨rfl, Or.inl (by decide), (C4_validation_before_io mGood sInit rfl).1 16 0 0
      (Or.inl (by decide)),
    Or.inr (by decide), (C4_validation_before_io mGood sInit rfl).2.1 0 5000
      (Or.inr (by decide))⟩

/-- C4 counterexample: on an Uninitialized driver with a working transport,
`SetPwm 16 0 0` does fail with OutOfRange, but a MODE1 register write was
issued first (by the auto-initialization), contradicting "regardless of the
driver's current state ... issues no register write". -/
theorem C4_validation_cex :
    sFresh.drv.inited = false ∧ (SetPwm mGood 16 0 0 sFresh).1 = false ∧
    (SetPwm mGood 16 0 0 sFresh).2.trace =
      [Ev.readyCheck, Ev.writeAttempt MODE1 [0]] := by
  refine ⟨rfl, by decide, by decide⟩



lemma writeLoop_trace_mono (m : I2cModel) (reg : Nat) (data : List Nat) :
    ∀ (r : Nat) (s : St) (e : Ev), e ∈ s.trace →
      e ∈ (writeLoop m reg data r s).2.trace := by
  intro r
  induction r with
  | zero =>
    intro s e he
    unfold writeLoop
    by_cases hok : m.ok s.ctr <;> simp [hok, he]
  | succ r' ih =>
    intro s e he
    unfold writeLoop
    by_cases hok : m.ok s.ctr
    · simp [hok, he]
    · simp only [hok, if_false, Bool.false_eq_true]
      by_cases hd : s.drv.hasDelay <;> simp only [hd, if_true, if_false] <;>
        apply ih <;> simp [he]

lemma writeLoop_mem (m : I2cModel) (reg : Nat) (data : List Nat) :
    ∀ (r : Nat) (s : St),
      Ev.writeAttempt reg data ∈ (writeLoop m reg data r s).2.trace := by
  intro r
  induction r with
  | zero =>
    intro s
    unfold writeLoop
    by_cases hok : m.ok s.ctr <;> simp [hok]
  | succ r' ih =>
    intro s
    unfold writeLoop
    by_cases hok : m.ok s.ctr
    · simp [hok]
    · simp only [hok, if_false, Bool.false_eq_true]
      by_cases hd : s.drv.hasDelay <;> simp only [hd, if_true, if_false] <;>
        apply ih

lemma writeReg_eq (m : I2cModel) (reg v : Nat) (s : St)
    (hb : s.drv.busPresent = true) :
    writeReg m reg v s =
      (if (writeLoop m reg [v] s.drv.retries s).1 then
        (true, (writeLoop m reg [v] s.drv.retries s).2)
      else
        (false, setError (writeLoop m reg [v] s.drv.retries s).2
          Error.I2cWrite)) := by
  unfold writeReg
  rw [if_neg (by simp [hb])]
  rcases hl : writeLoop m reg [v] s.drv.retries s with ⟨b, s1⟩
  cases b <;> simp

/-- C5 (amended): `Reset` on transport failure returns false, records the
failure (I2cWrite flag bit and last error), and forces the state to
Uninitialized (an Uninitialized driver stays Uninitialized, but an
Initialized driver loses its initialized state); on success it writes 0x00
to MODE1, sets the state to Initialized and clears the last error. -/
theorem C5_reset_behaviour (m : I2cModel) (s : St) :
    ((Reset m s).1 = false →
      (Reset m s).2.drv.inited = false ∧
      (Reset m s).2.drv.errorFlags.testBit 0 = true ∧
      (Reset m s).2.drv.lastError = Error.I2cWrite) ∧
    ((Reset m s).1 = true →
      (Reset m s).2.drv.inited = true ∧
      (Reset m s).2.drv.lastError = Error.None ∧
      Ev.writeAttempt MODE1 [0x00] ∈ (Reset m s).2.trace) := by
  unfold Reset
  by_cases hb : s.drv.busPresent = false
  · simp [hb, setInited, setError, Nat.testBit_or, Error.val]
  · simp only [hb, if_false, Bool.false_eq_true]
    by_cases hr : m.busReadyOk = false
    · simp [hr, setInited, setError, Nat.testBit_or, Error.val]
    · simp only [hr, if_false, Bool.false_eq_true]
      have hb1 : ({ s with trace := s.trace ++ [Ev.readyCheck] } : St).drv.busPresent = true := by
        simp at hb
        simp [hb]
      rw [writeReg_eq m MODE1 0x00 _ hb1]
      by_cases hl : (writeLoop m MODE1 [0x00]
          ({ s with trace := s.trace ++ [Ev.readyCheck] } : St).drv.retries
          { s with trace := s.trace ++ [Ev.readyCheck] }).1
      · simp only [hl, if_true]
        have hm := writeLoop_mem m MODE1 [0x00]
          ({ s with trace := s.trace ++ [Ev.readyCheck] } : St).drv.retries
          { s with trace := s.trace ++ [Ev.readyCheck] }
        simp [setInited, setLast, hm]
      · simp only [hl, if_false, Bool.false_eq_true]
        simp [setInited, setError, Nat.testBit_or, Error.val]

/-- C5 witness: a successful `Reset` on a fresh driver, and a failed one on
an initialized driver. -/
theorem C5_reset_witness :
    ((Reset mGood sFresh).1 = true ∧
      ((Reset mGood sFresh).2.drv.inited = true ∧
        (Reset mGood sFresh).2.drv.lastError = Error.None ∧
        Ev.writeAttempt MODE1 [0x00] ∈ (Reset mGood sFresh).2.trace)) ∧
    ((Reset mDead sInit).1 = false ∧
      ((Reset mDead sInit).2.drv.inited = false ∧
        (Reset mDead sInit).2.drv.errorFlags.testBit 0 = true ∧
        (Reset mDead sInit).2.drv.lastError = Error.I2cWrite)) :=
  ⟨⟨by decide, (C5_reset_behaviour mGood sFresh).2 (by decide)⟩,
    ⟨by decide, (C5_reset_behaviour mDead sInit).1 (by decide)⟩⟩

/-- C5 counterexample: a failed `Reset` on an Initialized driver does not
leave the initialization state unchanged; it resets it to Uninitialized. -/
theorem C5_reset_cex :
    sInit.drv.inited = true ∧ (Reset mDead sInit).1 = false ∧
    (Reset mDead sInit).2.drv.inited = false := by
  refine ⟨rfl, by decide, by decide⟩

/-- C10 (amended): when the transport ready-check fails before any register
traffic, the driver records the I2cWrite error (flag bit 0 and last error),
not DeviceNotFound: the DeviceNotFound flag (bit 3) stays clear. -/
theorem C10_ready_check_error (m : I2cModel) (s : St)
    (hb : s.drv.busPresent = true) (hr : m.busReadyOk = false) :
    (Reset m s).1 = false ∧
    (Reset m s).2.drv.errorFlags.testBit 0 = true ∧
    (Reset m s).2.drv.lastError = Error.I2cWrite ∧
    (s.drv.errorFlags.testBit 3 = false →
      (Reset m s).2.drv.errorFlags.testBit 3 = false) := by
  unfold Reset
  simp [hb, hr, setInited, setError, Nat.testBit_or, Error.val]
  intro h
  exact ⟨h, by decide⟩

/-- C10 witness: dead transport, fresh driver. -/
theorem C10_ready_check_witness :
    sFresh.drv.busPresent = true ∧ mDead.busReadyOk = false ∧
    ((Reset mDead sFresh).1 = false ∧
      (Reset mDead sFresh).2.drv.errorFlags.testBit 0 = true ∧
      (Reset mDead sFresh).2.drv.lastError = Error.I2cWrite ∧
      (sFresh.drv.errorFlags.testBit 3 = false →
        (Reset mDead sFresh).2.drv.errorFlags.testBit 3 = false)) :=
  ⟨rfl, rfl, C10_ready_check_error mDead sFresh rfl rfl⟩

/-- C10 counterexample: the ready-check fails, yet the DeviceNotFound flag
(bit 3) is not recorded; the I2cWrite flag (bit 0) is recorded instead. -/
theorem C10_ready_check_cex :
    mDead.busReadyOk = false ∧ (Reset mDead sFresh).1 = false ∧
    (Reset mDead sFresh).2.drv.errorFlags.testBit 3 = false ∧
    (Reset mDead sFresh).2.drv.errorFlags.testBit 0 = true := by
  refine ⟨rfl, by decide, by decide, by decide⟩



lemma readReg_zero (m : I2cModel) (reg : Nat) (s : St)
    (hb : s.drv.busPresent = true) (hr : s.drv.retries = 0) :
    readReg m reg s =
      (if m.ok s.ctr then
        (some (m.readData s.ctr % 256),
          { s with
              ctr := s.ctr + 1
              trace := s.trace ++ [Ev.readAttempt reg 1] })
      else
        (none, setError { s with
            ctr := s.ctr + 1
            trace := s.trace ++ [Ev.readAttempt reg 1] } Error.I2cRead)) := by
  unfold readReg
  rw [if_neg (by simp [hb]), hr]
  unfold readLoop
  by_cases hok : m.ok s.ctr <;> simp [hok]

lemma writeReg_zero (m : I2cModel) (reg v : Nat) (s : St)
    (hb : s.drv.busPresent = true) (hr : s.drv.retries = 0) :
    writeReg m reg v s =
      (if m.ok s.ctr then
        (true,
          { s with
              ctr := s.ctr + 1
              trace := s.trace ++ [Ev.writeAttempt reg [v]] })
      else
        (false, setError { s with
            ctr := s.ctr + 1
            trace := s.trace ++ [Ev.writeAttempt reg [v]] } Error.I2cWrite)) := by
  unfold writeReg
  rw [if_neg (by simp [hb]), hr]
  unfold writeLoop
  by_cases hok : m.ok s.ctr <;> simp [hok]

/-- C3: on an initialized driver (retry budget 0, so each logical transfer
is one transport attempt), a valid `SetPwmFreq` performs exactly the
sequence: read MODE1; write MODE1 with the sleep bit 0x10 set; write the
prescale register with the computed prescale; write MODE1 with the
originally read value.  It returns true iff all four transfers succeed. -/
theorem C3_setPwmFreq_sequence (m : I2cModel) (freq : ℚ) (s : St)
    (hi : s.drv.inited = true) (hb : s.drv.busPresent = true)
    (hr : s.drv.retries = 0) (h24 : 24 ≤ freq) (h1526 : freq ≤ 1526) :
    ((SetPwmFreq m freq s).1 =
      (m.ok s.ctr && m.ok (s.ctr + 1) && m.ok (s.ctr + 2) && m.ok (s.ctr + 3))) ∧
    (((m.readData s.ctr % 256 &&& 0x7F) ||| 0x10).testBit 4 = true) ∧
    ((SetPwmFreq m freq s).1 = true →
      (SetPwmFreq m freq s).2.trace = s.trace ++
        [Ev.readAttempt MODE1 1,
         Ev.writeAttempt MODE1 [(m.readData s.ctr % 256 &&& 0x7F) ||| 0x10],
         Ev.writeAttempt PRE_SCALE [calcPrescale freq],
         Ev.writeAttempt MODE1 [m.readData s.ctr % 256]]) := by
  have hval : ¬(freq < 24 ∨ freq > 1526) := by
    push_neg
    exact ⟨by linarith, by linarith⟩
  have hbit : (((m.readData s.ctr % 256 &&& 0x7F) ||| 0x10) : Nat).testBit 4 = true := by
    simp [Nat.testBit_or]
    exact Or.inr (by decide)
  refine ⟨?_, hbit, ?_⟩ <;>
  · by_cases hok0 : m.ok s.ctr <;>
      by_cases hok1 : m.ok (s.ctr + 1) <;>
      by_cases hok2 : m.ok (s.ctr + 2) <;>
      by_cases hok3 : m.ok (s.ctr + 3) <;>
      simp [SetPwmFreq, EnsureInit, hi, hval, readReg_zero, writeReg_zero,
        hb, hr, hok0, hok1, hok2, hok3, setError, setLast]

/-- C3 witness: `SetPwmFreq(50)` on an initialized driver with a perfect
transport (prescale byte 121). -/
theorem C3_setPwmFreq_witness :
    (sInit0.drv.inited = true ∧ sInit0.drv.busPresent = true ∧
      sInit0.drv.retries = 0 ∧ (24 : ℚ) ≤ 50 ∧ (50 : ℚ) ≤ 1526) ∧
    (((SetPwmFreq mGood 50 sInit0).1 =
      (mGood.ok sInit0.ctr && mGood.ok (sInit0.ctr + 1) &&
        mGood.ok (sInit0.ctr + 2) && mGood.ok (sInit0.ctr + 3))) ∧
    (((mGood.readData sInit0.ctr % 256 &&& 0x7F) ||| 0x10).testBit 4 = true) ∧
    ((SetPwmFreq mGood 50 sInit0).1 = true →
      (SetPwmFreq mGood 50 sInit0).2.trace = sInit0.trace ++
        [Ev.readAttempt MODE1 1,
         Ev.writeAttempt MODE1 [(mGood.readData sInit0.ctr % 256 &&& 0x7F) ||| 0x10],
         Ev.writeAttempt PRE_SCALE [calcPrescale 50],
         Ev.writeAttempt MODE1 [mGood.readData sInit0.ctr % 256]])) :=
  ⟨⟨rfl, rfl, rfl, by norm_num, by norm_num⟩,
    C3_setPwmFreq_sequence mGood 50 sInit0 rfl rfl rfl (by norm_num) (by norm_num)⟩


lemma countAtt_append (t l : List Ev) :
    countAtt (t ++ l) = countAtt t + countAtt l := by
  simp [countAtt, List.filter_append]

lemma countDelay_append (t l : List Ev) :
    countDelay (t ++ l) = countDelay t + countDelay l := by
  simp [countDelay, List.filter_append]

lemma firstOk_succ_true (okf : Nat → Bool) (start b : Nat)
    (h : okf start = true) : firstOk okf start (b + 1) = some 0 := by
  conv_lhs => unfold firstOk
  simp [h]

lemma firstOk_succ_false (okf : Nat → Bool) (start b : Nat)
    (h : okf start = false) :
    firstOk okf start (b + 1) = (firstOk okf (start + 1) b).map (· + 1) := by
  conv_lhs => unfold firstOk
  simp [h]

lemma firstOk_lt (okf : Nat → Bool) :
    ∀ (b start k : Nat), firstOk okf start b = some k → k < b := by
  intro b
  induction b with
  | zero => intro start k h; simp [firstOk] at h
  | succ b' ih =>
    intro start k h
    cases hok : okf start
    · rw [firstOk_succ_false okf start b' hok] at h
      simp at h
      rcases h with ⟨k', hk', rfl⟩
      have := ih (start + 1) k' hk'
      omega
    · rw [firstOk_succ_true okf start b' hok] at h
      simp at h
      omega

lemma usedAtt_pos (okf : Nat → Bool) (start r : Nat) :
    1 ≤ usedAtt okf start r := by
  unfold usedAtt
  cases h : firstOk okf start (r + 1) <;> simp

lemma usedAtt_le (okf : Nat → Bool) (start r : Nat) :
    usedAtt okf start r ≤ r + 1 := by
  unfold usedAtt
  cases h : firstOk okf start (r + 1) with
  | none => simp
  | some k =>
    have := firstOk_lt okf (r + 1) start k h
    simp
    omega

lemma usedAtt_true (okf : Nat → Bool) (start r : Nat) (h : okf start = true) :
    usedAtt okf start r = 1 := by
  unfold usedAtt
  rw [firstOk_succ_true okf start r h]

lemma usedAtt_false_succ (okf : Nat → Bool) (start r : Nat)
    (h : okf start = false) :
    usedAtt okf start (r + 1) = usedAtt okf (start + 1) r + 1 := by
  unfold usedAtt
  rw [firstOk_succ_false okf start (r + 1) h]
  cases h2 : firstOk okf (start + 1) (r + 1) <;> simp

lemma usedAtt_false_zero (okf : Nat → Bool) (start : Nat)
    (h : okf start = false) :
    usedAtt okf start 0 = 1 := by
  unfold usedAtt
  rw [firstOk_succ_false okf start 0 h]
  simp [firstOk]

lemma firstOk_isSome_succ (okf : Nat → Bool) (start b : Nat)
    (h : okf start = false) :
    (firstOk okf start (b + 1)).isSome = (firstOk okf (start + 1) b).isSome := by
  rw [firstOk_succ_false okf start b h]
  cases h2 : firstOk okf (start + 1) b <;> simp

lemma writeLoop_spec (m : I2cModel) (reg : Nat) (data : List Nat) :
    ∀ (r : Nat) (s : St),
      (writeLoop m reg data r s).1 = (firstOk m.ok s.ctr (r + 1)).isSome ∧
      (writeLoop m reg data r s).2.drv = s.drv ∧
      countAtt (writeLoop m reg data r s).2.trace =
        countAtt s.trace + usedAtt m.ok s.ctr r ∧
      countDelay (writeLoop m reg data r s).2.trace =
        countDelay s.trace +
          (if s.drv.hasDelay then usedAtt m.ok s.ctr r - 1 else 0) := by
  intro r
  induction r with
  | zero =>
    intro s
    unfold writeLoop
    cases hok : m.ok s.ctr
    · simp only [hok, Bool.false_eq_true, if_false]
      rw [firstOk_succ_false m.ok s.ctr 0 hok]
      simp [firstOk, usedAtt_false_zero m.ok s.ctr hok, countAtt_append,
        countDelay_append, countAtt, countDelay]
    · simp only [hok, if_true]
      rw [firstOk_succ_true m.ok s.ctr 0 hok]
      simp [usedAtt_true m.ok s.ctr 0 hok, countAtt_append,
        countDelay_append, countAtt, countDelay]
  | succ r' ih =>
    intro s
    unfold writeLoop
    cases hok : m.ok s.ctr
    · simp only [hok, Bool.false_eq_true, if_false]
      by_cases hd : s.drv.hasDelay
      · simp only [hd, if_true]
        have h2 := ih { s with
          ctr := s.ctr + 1
          trace := (s.trace ++ [Ev.writeAttempt reg data]) ++ [Ev.delayCall] }
        simp only at h2
        refine ⟨?_, ?_, ?_, ?_⟩
        · rw [h2.1, firstOk_isSome_succ m.ok s.ctr (r' + 1) hok]
        · rw [h2.2.1]
        · rw [h2.2.2.1, countAtt_append, countAtt_append,
            usedAtt_false_succ m.ok s.ctr r' hok]
          simp [countAtt]
          omega
        · rw [h2.2.2.2, countDelay_append, countDelay_append,
            usedAtt_false_succ m.ok s.ctr r' hok]
          simp [countDelay, hd]
          have := usedAtt_pos m.ok (s.ctr + 1) r'
          omega
      · simp only [hd, Bool.false_eq_true, if_false]
        have h2 := ih { s with
          ctr := s.ctr + 1
          trace := s.trace ++ [Ev.writeAttempt reg data] }
        simp only at h2
        refine ⟨?_, ?_, ?_, ?_⟩
        · rw [h2.1, firstOk_isSome_succ m.ok s.ctr (r' + 1) hok]
        · rw [h2.2.1]
        · rw [h2.2.2.1, countAtt_append,
            usedAtt_false_succ m.ok s.ctr r' hok]
          simp [countAtt]
          omega
        · rw [h2.2.2.2, countDelay_append]
          simp [countDelay, hd]
    · simp only [hok, if_true]
      rw [firstOk_succ_true m.ok s.ctr (r' + 1) hok]
      simp [usedAtt_true m.ok s.ctr (r' + 1) hok, countAtt_append,
        countDelay_append, countAtt, countDelay]



lemma readLoop_spec (m : I2cModel) (reg : Nat) :
    ∀ (r : Nat) (s : St),
      (readLoop m reg r s).1.isSome = (firstOk m.ok s.ctr (r + 1)).isSome ∧
      (readLoop m reg r s).2.drv = s.drv ∧
      countAtt (readLoop m reg r s).2.trace =
        countAtt s.trace + usedAtt m.ok s.ctr r ∧
      countDelay (readLoop m reg r s).2.trace =
        countDelay s.trace +
          (if s.drv.hasDelay then usedAtt m.ok s.ctr r - 1 else 0) := by
  intro r
  induction r with
  | zero =>
    intro s
    unfold readLoop
    cases hok : m.ok s.ctr
    · simp only [hok, Bool.false_eq_true, if_false]
      rw [firstOk_succ_false m.ok s.ctr 0 hok]
      simp [firstOk, usedAtt_false_zero m.ok s.ctr hok, countAtt_append,
        countDelay_append, countAtt, countDelay]
    · simp only [hok, if_true]
      rw [firstOk_succ_true m.ok s.ctr 0 hok]
      simp [usedAtt_true m.ok s.ctr 0 hok, countAtt_append,
        countDelay_append, countAtt, countDelay]
  | succ r' ih =>
    intro s
    unfold readLoop
    cases hok : m.ok s.ctr
    · simp only [hok, Bool.false_eq_true, if_false]
      by_cases hd : s.drv.hasDelay
      · simp only [hd, if_true]
        have h2 := ih { s with
          ctr := s.ctr + 1
          trace := (s.trace ++ [Ev.readAttempt reg 1]) ++ [Ev.delayCall] }
        simp only at h2
        refine ⟨?_, ?_, ?_, ?_⟩
        · rw [h2.1, firstOk_isSome_succ m.ok s.ctr (r' + 1) hok]
        · rw [h2.2.1]
        · rw [h2.2.2.1, countAtt_append, countAtt_append,
            usedAtt_false_succ m.ok s.ctr r' hok]
          simp [countAtt]
          omega
        · rw [h2.2.2.2, countDelay_append, countDelay_append,
            usedAtt_false_succ m.ok s.ctr r' hok]
          simp [countDelay, hd]
          have := usedAtt_pos m.ok (s.ctr + 1) r'
          omega
      · simp only [hd, Bool.false_eq_true, if_false]
        have h2 := ih { s with
          ctr := s.ctr + 1
          trace := s.trace ++ [Ev.readAttempt reg 1] }
        simp only at h2
        refine ⟨?_, ?_, ?_, ?_⟩
        · rw [h2.1, firstOk_isSome_succ m.ok s.ctr (r' + 1) hok]
        · rw [h2.2.1]
        · rw [h2.2.2.1, countAtt_append,
            usedAtt_false_succ m.ok s.ctr r' hok]
          simp [countAtt]
          omega
        · rw [h2.2.2.2, countDelay_append]
          simp [countDelay, hd]
    · simp only [hok, if_true]
      rw [firstOk_succ_true m.ok s.ctr (r' + 1) hok]
      simp [usedAtt_true m.ok s.ctr (r' + 1) hok, countAtt_append,
        countDelay_append, countAtt, countDelay]

lemma readBlockLoop_spec (m : I2cModel) (reg len : Nat) :
    ∀ (r : Nat) (s : St),
      (readBlockLoop m reg len r s).1.isSome = (firstOk m.ok s.ctr (r + 1)).isSome ∧
      (readBlockLoop m reg len r s).2.drv = s.drv ∧
      countAtt (readBlockLoop m reg len r s).2.trace =
        countAtt s.trace + usedAtt m.ok s.ctr r ∧
      countDelay (readBlockLoop m reg len r s).2.trace =
        countDelay s.trace +
          (if s.drv.hasDelay then usedAtt m.ok s.ctr r - 1 else 0) := by
  intro r
  induction r with
  | zero =>
    intro s
    unfold readBlockLoop
    cases hok : m.ok s.ctr
    · simp only [hok, Bool.false_eq_true, if_false]
      rw [firstOk_succ_false m.ok s.ctr 0 hok]
      simp [firstOk, usedAtt_false_zero m.ok s.ctr hok, countAtt_append,
        countDelay_append, countAtt, countDelay]
    · simp only [hok, if_true]
      rw [firstOk_succ_true m.ok s.ctr 0 hok]
      simp [usedAtt_true m.ok s.ctr 0 hok, countAtt_append,
        countDelay_append, countAtt, countDelay]
  | succ r' ih =>
    intro s
    unfold readBlockLoop
    cases hok : m.ok s.ctr
    · simp only [hok, Bool.false_eq_true, if_false]
      by_cases hd : s.drv.hasDelay
      · simp only [hd, if_true]
        have h2 := ih { s with
          ctr := s.ctr + 1
          trace := (s.trace ++ [Ev.readAttempt reg len]) ++ [Ev.delayCall] }
        simp only at h2
        refine ⟨?_, ?_, ?_, ?_⟩
        · rw [h2.1, firstOk_isSome_succ m.ok s.ctr (r' + 1) hok]
        · rw [h2.2.1]
        · rw [h2.2.2.1, countAtt_append, countAtt_append,
            usedAtt_false_succ m.ok s.ctr r' hok]
          simp [countAtt]
          omega
        · rw [h2.2.2.2, countDelay_append, countDelay_append,
            usedAtt_false_succ m.ok s.ctr r' hok]
          simp [countDelay, hd]
          have := usedAtt_pos m.ok (s.ctr + 1) r'
          omega
      · simp only [hd, Bool.false_eq_true, if_false]
        have h2 := ih { s with
          ctr := s.ctr + 1
          trace := s.trace ++ [Ev.readAttempt reg len] }
        simp only at h2
        refine ⟨?_, ?_, ?_, ?_⟩
        · rw [h2.1, firstOk_isSome_succ m.ok s.ctr (r' + 1) hok]
        · rw [h2.2.1]
        · rw [h2.2.2.1, countAtt_append,
            usedAtt_false_succ m.ok s.ctr r' hok]
          simp [countAtt]
          omega
        · rw [h2.2.2.2, countDelay_append]
          simp [countDelay, hd]
    · simp only [hok, if_true]
      rw [firstOk_succ_true m.ok s.ctr (r' + 1) hok]
      simp [usedAtt_true m.ok s.ctr (r' + 1) hok, countAtt_append,
        countDelay_append, countAtt, countDelay]



/-- C2: every low-level register operation (`writeReg`, `readReg`,
`writeRegBlock`, `readRegBlock`) obeys the retry contract `RetrySpec`: at
most `retries + 1` transport attempts, success exactly when some attempt in
the budget succeeds (stopping at the first success), the I2cWrite / I2cRead
flag set and recorded on total failure only, and the delay callback invoked
exactly after each failed non-final attempt (never after the final one). -/
theorem C2_register_retry_contract (m : I2cModel) (s : St)
    (reg v len : Nat) (data : List Nat) (hb : s.drv.busPresent = true) :
    RetrySpec m s Error.I2cWrite (writeReg m reg v s) ∧
    RetrySpec m s Error.I2cRead
      ((readReg m reg s).1.isSome, (readReg m reg s).2) ∧
    RetrySpec m s Error.I2cWrite (writeRegBlock m reg data s) ∧
    RetrySpec m s Error.I2cRead
      ((readRegBlock m reg len s).1.isSome, (readRegBlock m reg len s).2) := by
  refine ⟨?_, ?_, ?_, ?_⟩
  · have hs := writeLoop_spec m reg [v] s.drv.retries s
    unfold writeReg
    rw [if_neg (by simp [hb])]
    rcases hl : writeLoop m reg [v] s.drv.retries s with ⟨b, s1⟩
    rw [hl] at hs
    simp only at hs
    cases b
    · simp only
      refine ⟨usedAtt_le m.ok s.ctr s.drv.retries, ?_, ?_, ?_, ?_, ?_⟩
      · exact hs.1
      · simp [setError, hs.2.2.1]
      · simp [setError, hs.2.2.2]
      · intro h; cases h
      · intro h
        simp [setError, hs.2.1, Error.val]
    · simp only
      refine ⟨usedAtt_le m.ok s.ctr s.drv.retries, ?_, ?_, ?_, ?_, ?_⟩
      · exact hs.1
      · exact hs.2.2.1
      · exact hs.2.2.2
      · intro h; exact hs.2.1
      · intro h; cases h
  · have hs := readLoop_spec m reg s.drv.retries s
    unfold readReg
    rw [if_neg (by simp [hb])]
    rcases hl : readLoop m reg s.drv.retries s with ⟨b, s1⟩
    rw [hl] at hs
    simp only at hs
    cases b
    · simp only
      refine ⟨usedAtt_le m.ok s.ctr s.drv.retries, ?_, ?_, ?_, ?_, ?_⟩
      · simpa using hs.1
      · simp [setError, hs.2.2.1]
      · simp [setError, hs.2.2.2]
      · intro h; simp at h
      · intro h
        simp [setError, hs.2.1, Error.val]
    · simp only
      refine ⟨usedAtt_le m.ok s.ctr s.drv.retries, ?_, ?_, ?_, ?_, ?_⟩
      · simpa using hs.1
      · exact hs.2.2.1
      · exact hs.2.2.2
      · intro h; exact hs.2.1
      · intro h; simp at h
  · have hs := writeLoop_spec m reg data s.drv.retries s
    unfold writeRegBlock
    rw [if_neg (by simp [hb])]
    rcases hl : writeLoop m reg data s.drv.retries s with ⟨b, s1⟩
    rw [hl] at hs
    simp only at hs
    cases b
    · simp only
      refine ⟨usedAtt_le m.ok s.ctr s.drv.retries, ?_, ?_, ?_, ?_, ?_⟩
      · exact hs.1
      · simp [setError, hs.2.2.1]
      · simp [setError, hs.2.2.2]
      · intro h; cases h
      · intro h
        simp [setError, hs.2.1, Error.val]
    · simp only
      refine ⟨usedAtt_le m.ok s.ctr s.drv.retries, ?_, ?_, ?_, ?_, ?_⟩
      · exact hs.1
      · exact hs.2.2.1
      · exact hs.2.2.2
      · intro h; exact hs.2.1
      · intro h; cases h
  · have hs := readBlockLoop_spec m reg len s.drv.retries s
    unfold readRegBlock
    rw [if_neg (by simp [hb])]
    rcases hl : readBlockLoop m reg len s.drv.retries s with ⟨b, s1⟩
    rw [hl] at hs
    simp only at hs
    cases b
    · simp only
      refine ⟨usedAtt_le m.ok s.ctr s.drv.retries, ?_, ?_, ?_, ?_, ?_⟩
      · simpa using hs.1
      · simp [setError, hs.2.2.1]
      · simp [setError, hs.2.2.2]
      · intro h; simp at h
      · intro h
        simp [setError, hs.2.1, Error.val]
    · simp only
      refine ⟨usedAtt_le m.ok s.ctr s.drv.retries, ?_, ?_, ?_, ?_, ?_⟩
      · simpa using hs.1
      · exact hs.2.2.1
      · exact hs.2.2.2
      · intro h; exact hs.2.1
      · intro h; simp at h


/-- C2 witness: a transport failing twice then succeeding, with retries
configured to 2 and a delay callback set: the operation succeeds with
exactly 3 attempts and 2 delay invocations. -/
theorem C2_register_retry_witness :
    sRetry2.drv.busPresent = true ∧
    (RetrySpec mFlaky sRetry2 Error.I2cWrite (writeReg mFlaky 0 0 sRetry2) ∧
      RetrySpec mFlaky sRetry2 Error.I2cRead
        ((readReg mFlaky 0 sRetry2).1.isSome, (readReg mFlaky 0 sRetry2).2) ∧
      RetrySpec mFlaky sRetry2 Error.I2cWrite
        (writeRegBlock mFlaky 0 [0] sRetry2) ∧
      RetrySpec mFlaky sRetry2 Error.I2cRead
        ((readRegBlock mFlaky 0 1 sRetry2).1.isSome,
          (readRegBlock mFlaky 0 1 sRetry2).2)) ∧
    (writeReg mFlaky 0 0 sRetry2).1 = true ∧
    countAtt (writeReg mFlaky 0 0 sRetry2).2.trace = 3 ∧
    countDelay (writeReg mFlaky 0 0 sRetry2).2.trace = 2 :=
  ⟨rfl, C2_register_retry_contract mFlaky sRetry2 0 0 1 [0] rfl,
    by decide, by decide, by decide⟩


lemma flagsMono_refl (s : St) : FlagsMono s s := fun _ h => h

lemma flagsMono_trans {a b c : St} (h1 : FlagsMono a b) (h2 : FlagsMono b c) :
    FlagsMono a c := fun n h => h2 n (h1 n h)

lemma flagsMono_of_eq {a b : St} (h : b.drv.errorFlags = a.drv.errorFlags) :
    FlagsMono a b := fun n hn => by rw [h]; exact hn

lemma flagsMono_setError (s : St) (e : Error) : FlagsMono s (setError s e) := by
  intro n hn
  simp [setError, Nat.testBit_or, hn]

lemma flagsMono_writeReg (m : I2cModel) (reg v : Nat) (s : St) :
    FlagsMono s (writeReg m reg v s).2 := by
  unfold writeReg
  by_cases hb : s.drv.busPresent = false
  · rw [if_pos hb]
    exact flagsMono_refl s
  · rw [if_neg hb]
    have hs := (writeLoop_spec m reg [v] s.drv.retries s).2.1
    rcases hl : writeLoop m reg [v] s.drv.retries s with ⟨b, s1⟩
    rw [hl] at hs
    simp only at hs
    cases b
    · exact flagsMono_trans (flagsMono_of_eq (by rw [hs]))
        (flagsMono_setError s1 Error.I2cWrite)
    · exact flagsMono_of_eq (by rw [hs])

lemma flagsMono_writeRegBlock (m : I2cModel) (reg : Nat) (data : List Nat)
    (s : St) : FlagsMono s (writeRegBlock m reg data s).2 := by
  unfold writeRegBlock
  by_cases hb : s.drv.busPresent = false
  · rw [if_pos hb]
    exact flagsMono_refl s
  · rw [if_neg hb]
    have hs := (writeLoop_spec m reg data s.drv.retries s).2.1
    rcases hl : writeLoop m reg data s.drv.retries s with ⟨b, s1⟩
    rw [hl] at hs
    simp only at hs
    cases b
    · exact flagsMono_trans (flagsMono_of_eq (by rw [hs]))
        (flagsMono_setError s1 Error.I2cWrite)
    · exact flagsMono_of_eq (by rw [hs])

lemma flagsMono_readReg (m : I2cModel) (reg : Nat) (s : St) :
    FlagsMono s (readReg m reg s).2 := by
  unfold readReg
  by_cases hb : s.drv.busPresent = false
  · rw [if_pos hb]
    exact flagsMono_refl s
  · rw [if_neg hb]
    have hs := (readLoop_spec m reg s.drv.retries s).2.1
    rcases hl : readLoop m reg s.drv.retries s with ⟨b, s1⟩
    rw [hl] at hs
    simp only at hs
    cases b
    · exact flagsMono_trans (flagsMono_of_eq (by rw [hs]))
        (flagsMono_setError s1 Error.I2cRead)
    · exact flagsMono_of_eq (by rw [hs])

lemma flagsMono_Reset (m : I2cModel) (s : St) :
    FlagsMono s (Reset m s).2 := by
  unfold Reset
  by_cases hb : s.drv.busPresent = false
  · rw [if_pos hb]
    exact flagsMono_trans (flagsMono_setError s Error.I2cWrite)
      (flagsMono_of_eq (by simp [setInited]))
  · rw [if_neg hb]
    by_cases hr : m.busReadyOk = false
    · rw [if_pos hr]
      exact flagsMono_trans
        (flagsMono_trans
          (flagsMono_of_eq (rfl :
            ({ s with trace := s.trace ++ [Ev.readyCheck] } : St).drv.errorFlags =
              s.drv.errorFlags))
          (flagsMono_setError _ Error.I2cWrite))
        (flagsMono_of_eq (by simp [setInited]))
    · rw [if_neg hr]
      have hw := flagsMono_writeReg m MODE1 0x00
        { s with trace := s.trace ++ [Ev.readyCheck] }
      have h0 : FlagsMono s { s with trace := s.trace ++ [Ev.readyCheck] } :=
        flagsMono_of_eq rfl
      rcases hl : writeReg m MODE1 0x00
          { s with trace := s.trace ++ [Ev.readyCheck] } with ⟨b, s1⟩
      rw [hl] at hw
      simp only at hw
      cases b
      · exact flagsMono_trans (flagsMono_trans h0 hw)
          (flagsMono_of_eq (by simp [setInited]))
      · exact flagsMono_trans (flagsMono_trans h0 hw)
          (flagsMono_of_eq (by simp [setInited, setLast]))

lemma flagsMono_EnsureInit (m : I2cModel) (s : St) :
    FlagsMono s (EnsureInit m s).2 := by
  unfold EnsureInit
  by_cases hi : s.drv.inited
  · rw [if_pos hi]
    exact flagsMono_refl s
  · rw [if_neg hi]
    exact flagsMono_Reset m s

lemma flagsMono_modifyReg (m : I2cModel) (reg mask v : Nat) (s : St) :
    FlagsMono s (modifyReg m reg mask v s).2 := by
  unfold modifyReg
  split
  next s1 heq =>
    have hr := flagsMono_readReg m reg s
    rw [heq] at hr
    exact hr
  next cur s1 heq =>
    have hr := flagsMono_readReg m reg s
    rw [heq] at hr
    dsimp only
    split
    next s2 heq2 =>
      have hw := flagsMono_writeReg m reg (cur &&& (0xFF ^^^ mask) ||| v &&& mask) s1
      rw [heq2] at hw
      exact flagsMono_trans hr hw
    next s2 heq2 =>
      have hw := flagsMono_writeReg m reg (cur &&& (0xFF ^^^ mask) ||| v &&& mask) s1
      rw [heq2] at hw
      exact flagsMono_trans (flagsMono_trans hr hw)
        (flagsMono_of_eq (by simp [setLast]))



lemma flagsMono_gate {m : I2cModel} {s : St} {s1 : St} {b : Bool}
    (heq : EnsureInit m s = (b, s1)) : FlagsMono s s1 := by
  have h := flagsMono_EnsureInit m s
  rw [heq] at h
  exact h

lemma flagsMono_wrb {m : I2cModel} {reg : Nat} {data : List Nat} {s1 s2 : St}
    {b : Bool} (heq : writeRegBlock m reg data s1 = (b, s2)) :
    FlagsMono s1 s2 := by
  have h := flagsMono_writeRegBlock m reg data s1
  rw [heq] at h
  exact h

lemma flagsMono_wr {m : I2cModel} {reg v : Nat} {s1 s2 : St}
    {b : Bool} (heq : writeReg m reg v s1 = (b, s2)) :
    FlagsMono s1 s2 := by
  have h := flagsMono_writeReg m reg v s1
  rw [heq] at h
  exact h

lemma flagsMono_rr {m : I2cModel} {reg : Nat} {s1 s2 : St}
    {ov : Option Nat} (heq : readReg m reg s1 = (ov, s2)) :
    FlagsMono s1 s2 := by
  have h := flagsMono_readReg m reg s1
  rw [heq] at h
  exact h

lemma flagsMono_mr {m : I2cModel} {reg mask v : Nat} {s1 s2 : St}
    {b : Bool} (heq : modifyReg m reg mask v s1 = (b, s2)) :
    FlagsMono s1 s2 := by
  have h := flagsMono_modifyReg m reg mask v s1
  rw [heq] at h
  exact h

lemma flagsMono_setLast (s : St) (e : Error) : FlagsMono s (setLast s e) :=
  flagsMono_of_eq (by simp [setLast])

lemma flagsMono_SetPwm (m : I2cModel) (c a b : Nat) (s : St) :
    FlagsMono s (SetPwm m c a b s).2 := by
  unfold SetPwm
  split
  next s1 heq => exact flagsMono_trans (flagsMono_gate heq) (flagsMono_setError s1 _)
  next s1 heq =>
    have h1 := flagsMono_gate heq
    split
    · exact flagsMono_trans h1 (flagsMono_setError s1 _)
    · split
      next s2 heq2 => exact flagsMono_trans h1 (flagsMono_wrb heq2)
      next s2 heq2 =>
        exact flagsMono_trans (flagsMono_trans h1 (flagsMono_wrb heq2))
          (flagsMono_setLast s2 _)

lemma flagsMono_SetAllPwm (m : I2cModel) (a b : Nat) (s : St) :
    FlagsMono s (SetAllPwm m a b s).2 := by
  unfold SetAllPwm
  split
  next s1 heq => exact flagsMono_trans (flagsMono_gate heq) (flagsMono_setError s1 _)
  next s1 heq =>
    have h1 := flagsMono_gate heq
    split
    · exact flagsMono_trans h1 (flagsMono_setError s1 _)
    · split
      next s2 heq2 => exact flagsMono_trans h1 (flagsMono_wrb heq2)
      next s2 heq2 =>
        exact flagsMono_trans (flagsMono_trans h1 (flagsMono_wrb heq2))
          (flagsMono_setLast s2 _)

lemma flagsMono_SetChannelFullOn (m : I2cModel) (c : Nat) (s : St) :
    FlagsMono s (SetChannelFullOn m c s).2 := by
  unfold SetChannelFullOn
  split
  next s1 heq => exact flagsMono_trans (flagsMono_gate heq) (flagsMono_setError s1 _)
  next s1 heq =>
    have h1 := flagsMono_gate heq
    split
    · exact flagsMono_trans h1 (flagsMono_setError s1 _)
    · split
      next s2 heq2 => exact flagsMono_trans h1 (flagsMono_wrb heq2)
      next s2 heq2 =>
        exact flagsMono_trans (flagsMono_trans h1 (flagsMono_wrb heq2))
          (flagsMono_setLast s2 _)

lemma flagsMono_SetChannelFullOff (m : I2cModel) (c : Nat) (s : St) :
    FlagsMono s (SetChannelFullOff m c s).2 := by
  unfold SetChannelFullOff
  split
  next s1 heq => exact flagsMono_trans (flagsMono_gate heq) (flagsMono_setError s1 _)
  next s1 heq =>
    have h1 := flagsMono_gate heq
    split
    · exact flagsMono_trans h1 (flagsMono_setError s1 _)
    · split
      next s2 heq2 => exact flagsMono_trans h1 (flagsMono_wrb heq2)
      next s2 heq2 =>
        exact flagsMono_trans (flagsMono_trans h1 (flagsMono_wrb heq2))
          (flagsMono_setLast s2 _)

lemma flagsMono_Sleep (m : I2cModel) (s : St) :
    FlagsMono s (Sleep m s).2 := by
  unfold Sleep
  split
  next s1 heq => exact flagsMono_trans (flagsMono_gate heq) (flagsMono_setError s1 _)
  next s1 heq =>
    have h2 := flagsMono_modifyReg m MODE1 0x10 0x10 s1
    exact flagsMono_trans (flagsMono_gate heq) h2

lemma flagsMono_SetOutputInvert (m : I2cModel) (inv : Bool) (s : St) :
    FlagsMono s (SetOutputInvert m inv s).2 := by
  unfold SetOutputInvert
  split
  next s1 heq => exact flagsMono_trans (flagsMono_gate heq) (flagsMono_setError s1 _)
  next s1 heq =>
    exact flagsMono_trans (flagsMono_gate heq)
      (flagsMono_modifyReg m MODE2 0x10 (if inv then 0x10 else 0x00) s1)

lemma flagsMono_SetOutputDriverMode (m : I2cModel) (tp : Bool) (s : St) :
    FlagsMono s (SetOutputDriverMode m tp s).2 := by
  unfold SetOutputDriverMode
  split
  next s1 heq => exact flagsMono_trans (flagsMono_gate heq) (flagsMono_setError s1 _)
  next s1 heq =>
    exact flagsMono_trans (flagsMono_gate heq)
      (flagsMono_modifyReg m MODE2 0x04 (if tp then 0x04 else 0x00) s1)

lemma flagsMono_GetPrescale (m : I2cModel) (s : St) :
    FlagsMono s (GetPrescale m s).2 := by
  unfold GetPrescale
  split
  next s1 heq => exact flagsMono_trans (flagsMono_gate heq) (flagsMono_setError s1 _)
  next s1 heq =>
    have h1 := flagsMono_gate heq
    split
    next s2 heq2 => exact flagsMono_trans h1 (flagsMono_rr heq2)
    next v s2 heq2 =>
      exact flagsMono_trans (flagsMono_trans h1 (flagsMono_rr heq2))
        (flagsMono_setLast s2 _)

lemma flagsMono_Wake (m : I2cModel) (s : St) :
    FlagsMono s (Wake m s).2 := by
  unfold Wake
  split
  next s1 heq => exact flagsMono_trans (flagsMono_gate heq) (flagsMono_setError s1 _)
  next s1 heq =>
    have h1 := flagsMono_gate heq
    split
    next s2 heq2 => exact flagsMono_trans h1 (flagsMono_rr heq2)
    next mode1 s2 heq2 =>
      have h2 := flagsMono_trans h1 (flagsMono_rr heq2)
      dsimp only
      split
      next s3 heq3 => exact flagsMono_trans h2 (flagsMono_wr heq3)
      next s3 heq3 =>
        have h3 := flagsMono_trans h2 (flagsMono_wr heq3)
        split
        · split
          next s4 heq4 => exact flagsMono_trans h3 (flagsMono_wr heq4)
          next s4 heq4 =>
            exact flagsMono_trans (flagsMono_trans h3 (flagsMono_wr heq4))
              (flagsMono_setLast s4 _)
        · exact flagsMono_trans h3 (flagsMono_setLast s3 _)

lemma flagsMono_SetPwmFreq (m : I2cModel) (f : ℚ) (s : St) :
    FlagsMono s (SetPwmFreq m f s).2 := by
  unfold SetPwmFreq
  split
  next s1 heq => exact flagsMono_trans (flagsMono_gate heq) (flagsMono_setError s1 _)
  next s1 heq =>
    have h1 := flagsMono_gate heq
    split
    · exact flagsMono_trans h1 (flagsMono_setError s1 _)
    · split
      next s2 heq2 => exact flagsMono_trans h1 (flagsMono_rr heq2)
      next old s2 heq2 =>
        have h2 := flagsMono_trans h1 (flagsMono_rr heq2)
        split
        next s3 heq3 => exact flagsMono_trans h2 (flagsMono_wr heq3)
        next s3 heq3 =>
          have h3 := flagsMono_trans h2 (flagsMono_wr heq3)
          split
          next s4 heq4 => exact flagsMono_trans h3 (flagsMono_wr heq4)
          next s4 heq4 =>
            have h4 := flagsMono_trans h3 (flagsMono_wr heq4)
            split
            next s5 heq5 => exact flagsMono_trans h4 (flagsMono_wr heq5)
            next s5 heq5 =>
              exact flagsMono_trans (flagsMono_trans h4 (flagsMono_wr heq5))
                (flagsMono_setLast s5 _)



/-- C9: error flags are sticky: after any driver operation the accumulated
error-flag bitmask contains every bit it contained before (a successful
operation never auto-clears previously set flags); bits are removed only by
the explicit `ClearError` / `ClearErrorFlags` calls, which clear exactly the
requested bits. -/
theorem C9_error_flags_sticky :
    (∀ (op : Op) (m : I2cModel) (s : St), FlagsMono s (runOp op m s).2) ∧
    (∀ (s : St) (e : Error) (n : Nat), n < 16 →
      (ClearError s e).drv.errorFlags.testBit n =
        (s.drv.errorFlags.testBit n && !(e.val.testBit n))) ∧
    (∀ (s : St) (mask : Nat) (n : Nat), n < 16 →
      (ClearErrorFlags s mask).drv.errorFlags.testBit n =
        (s.drv.errorFlags.testBit n && !(mask.testBit n))) := by
  refine ⟨?_, ?_, ?_⟩
  · intro op m s
    cases op with
    | reset => exact flagsMono_Reset m s
    | ensureInit => exact flagsMono_EnsureInit m s
    | setPwmFreq f => exact flagsMono_SetPwmFreq m f s
    | setPwm c a b => exact flagsMono_SetPwm m c a b s
    | setDuty c d => exact flagsMono_SetPwm m c 0 (dutyToOffTick d) s
    | setAllPwm a b => exact flagsMono_SetAllPwm m a b s
    | getPrescale => exact flagsMono_GetPrescale m s
    | sleep => exact flagsMono_Sleep m s
    | wake => exact flagsMono_Wake m s
    | setOutputInvert b => exact flagsMono_SetOutputInvert m b s
    | setOutputDriverMode b => exact flagsMono_SetOutputDriverMode m b s
    | setChannelFullOn c => exact flagsMono_SetChannelFullOn m c s
    | setChannelFullOff c => exact flagsMono_SetChannelFullOff m c s
  · intro s e n hn
    simp only [ClearError, Nat.testBit_and, Nat.testBit_xor]
    rw [show (0xFFFF : Nat) = 2 ^ 16 - 1 from rfl,
      Nat.testBit_two_pow_sub_one]
    simp [hn, Bool.xor_comm]
  · intro s mask n hn
    simp only [ClearErrorFlags, Nat.testBit_and, Nat.testBit_xor]
    rw [show (0xFFFF : Nat) = 2 ^ 16 - 1 from rfl,
      Nat.testBit_two_pow_sub_one]
    simp [hn, Bool.xor_comm]

/-- C9 witness: a previously recorded OutOfRange flag (bit 5) survives a
successful `Reset`, and `ClearError` removes exactly that bit. -/
theorem C9_error_flags_witness :
    (setError sInit Error.OutOfRange).drv.errorFlags.testBit 5 = true ∧
    ((runOp Op.reset mGood (setError sInit Error.OutOfRange)).1 = true ∧
      (runOp Op.reset mGood
        (setError sInit Error.OutOfRange)).2.drv.errorFlags.testBit 5 = true) ∧
    (5 < 16 ∧
      (ClearError (setError sInit Error.OutOfRange)
        Error.OutOfRange).drv.errorFlags.testBit 5 =
        ((setError sInit Error.OutOfRange).drv.errorFlags.testBit 5 &&
          !(Error.OutOfRange.val.testBit 5))) :=
  ⟨by decide,
    ⟨by decide,
      C9_error_flags_sticky.1 Op.reset mGood (setError sInit Error.OutOfRange)
        5 (by decide)⟩,
    by decide,
    C9_error_flags_sticky.2.1 (setError sInit Error.OutOfRange)
      Error.OutOfRange 5 (by decide)⟩


end PCA9685
